import Mathlib

/-!
Verification of the math-scraper repository (exam-paper scraper).

This file shallowly embeds the core logic of the repository:

* `src/scrapers.py` — the unified pipeline (`determine_paper_number`,
  `extract_metadata`, the per-link body of `scrape_papers`);
* `src/main.py`   — the resumable orchestrator (`scrape_pmt_papers` with its
  per-link processing, the section resolver handling the shared
  `paper1` anchor, the tracking-CSV ledger, download / validate / record).

External collaborators (HTTP fetch, PDF validation, MD5 hashing, `urljoin`,
percent-decoding, wall clock) are modelled as fields of an `Env` record of
pure functions: one run of the orchestrator against an unchanged source page
and a deterministic network is one choice of `Env`.  The file system is an
association list from paths to file contents, and the ledger is a list of
rows mirroring the CSV schema.  Python strings are modelled as Lean
`String`s; the inputs handled by the scraper are ASCII, so `Char.toLower` /
`Char.toUpper` agree with Python's `str.lower` / `str.upper` on them.
-/

namespace MathScraper

/-! ### Python-style string primitives

The scraper uses a small set of `str` / `re` operations; each is embedded
here as a total function on `List Char` / `String`. -/

/-- Does `p` occur as a prefix of `s`?  (character-exact) -/
def prefixMatch : List Char → List Char → Bool
  | [], _ => true
  | _ :: _, [] => false
  | p :: ps, c :: cs => p = c && prefixMatch ps cs

/-- Drop the prefix `p` from `s`, or `none` if `p` is not a prefix. -/
def dropPre : List Char → List Char → Option (List Char)
  | [], s => some s
  | _ :: _, [] => none
  | p :: ps, c :: cs => if p = c then dropPre ps cs else none

/-- Does `pat` occur as a contiguous substring of `s`?
Embeds Python's `pat in s`. -/
def subMatch (pat : List Char) : List Char → Bool
  | [] => prefixMatch pat []
  | c :: cs => prefixMatch pat (c :: cs) || subMatch pat cs

/-- Python `pat in s` on strings. -/
def strHas (s pat : String) : Bool := subMatch pat.toList s.toList

/-- ASCII lower-casing, as Python `str.lower` on ASCII input. -/
def pyLower (s : String) : String := ⟨s.toList.map Char.toLower⟩

/-- ASCII upper-casing, as Python `str.upper` on ASCII input. -/
def pyUpper (s : String) : String := ⟨s.toList.map Char.toUpper⟩

/-- Python `str.capitalize`: first character upper-case, the rest lower. -/
def pyCapitalize (s : String) : String :=
  match s.toList with
  | [] => ""
  | c :: cs => ⟨Char.toUpper c :: cs.map Char.toLower⟩

/-- Python whitespace (the characters stripped by `str.strip`). -/
def pySpace (c : Char) : Bool :=
  c = ' ' || c = '\t' || c = '\n' || c = '\x0d' || c = '\x0b' || c = '\x0c'

/-- Python `str.strip` (whitespace on both ends). -/
def pyStrip (s : String) : String :=
  ⟨((s.toList.dropWhile pySpace).reverse.dropWhile pySpace).reverse⟩

/-- Python `s.startswith p`. -/
def pyStartsWith (s p : String) : Bool := prefixMatch p.toList s.toList

/-- Python `s.endswith p`. -/
def pyEndsWith (s p : String) : Bool :=
  prefixMatch p.toList.reverse s.toList.reverse

/-- Python `s.replace(a, b)` for single characters. -/
def pyReplaceChar (a b : Char) (s : String) : String :=
  ⟨s.toList.map (fun c => if c = a then b else c)⟩

/-- Python `s[:n]` for a non-negative `n`. -/
def pyTake (n : Nat) (s : String) : String := ⟨s.toList.take n⟩

/-- Python `os.path.basename` on a POSIX path / URL: the part after the last `/`. -/
def basename (s : String) : String :=
  ⟨(s.toList.reverse.takeWhile (fun c => c ≠ '/')).reverse⟩

/-- ASCII digit test (`\d` over the scraper's ASCII inputs). -/
def isDig (c : Char) : Bool := '0' ≤ c && c ≤ '9'

/-- Embeds `re.search(tok + r'(\d+)', s)`: scan left to right for the literal token
`tok` immediately followed by at least one digit; return the (maximal) digit
group of the leftmost match. -/
def searchTokAux (tok : List Char) : List Char → Option (List Char)
  | [] => none
  | c :: cs =>
    match dropPre tok (c :: cs) with
    | some rest =>
      let ds := rest.takeWhile isDig
      if ds.isEmpty then searchTokAux tok cs else some ds
    | none => searchTokAux tok cs

/-- String version of `searchTokAux`; yields the digit group. -/
def searchTokDigits (tok s : String) : Option String :=
  (searchTokAux tok.toList s.toList).map (fun l => ⟨l⟩)

/-- Embeds `re.search(r'20(\d{2})', s)`: leftmost occurrence of `20` followed by two
digits; returns the full four-character year (`"20" + group`). -/
def yearAux : List Char → Option (List Char)
  | [] => none
  | c :: cs =>
    match c, cs with
    | '2', '0' :: a :: b :: _ =>
      if isDig a && isDig b then some ['2', '0', a, b] else yearAux cs
    | _, _ => yearAux cs

/-- Year extraction used by every pipeline of the repository. -/
def yearSearch (s : String) : Option String :=
  (yearAux s.toList).map (fun l => ⟨l⟩)

/-- First alternative of `alts` that matches at the head of `s`
(case-sensitive), as in a `re` alternation tried left to right. -/
def firstAltAt (alts : List (List Char)) (s : List Char) : Option (List Char) :=
  alts.find? (fun a => prefixMatch a s)

/-- Embeds `re.search('(a1|a2|...)', s)` case-sensitive: leftmost position wins,
then alternative order; returns the matched alternative. -/
def altScan (alts : List (List Char)) : List Char → Option (List Char)
  | [] => none
  | c :: cs =>
    match firstAltAt alts (c :: cs) with
    | some a => some a
    | none => altScan alts cs

/-- Case-insensitive prefix match (ASCII folding, as `re.IGNORECASE`). -/
def prefixMatchCI : List Char → List Char → Bool
  | [], _ => true
  | _ :: _, [] => false
  | p :: ps, c :: cs => Char.toLower p = Char.toLower c && prefixMatchCI ps cs

/-- First alternative matching case-insensitively at the head of `s`;
returns the slice of `s` actually matched (original casing). -/
def firstAltAtCI (alts : List (List Char)) (s : List Char) : Option (List Char) :=
  match alts.find? (fun a => prefixMatchCI a s) with
  | some a => some (s.take a.length)
  | none => none

/-- Embeds `re.search('(a1|...)', s, re.IGNORECASE)`: leftmost match, alternative
order, returning the matched slice of `s`. -/
def altScanCI (alts : List (List Char)) : List Char → Option (List Char)
  | [] => none
  | c :: cs =>
    match firstAltAtCI alts (c :: cs) with
    | some m => some m
    | none => altScanCI alts cs

/-- Python `s.split(sep)` for a non-empty separator (fuel-driven scan;
the fuel `|s| + 1` always suffices because each step consumes a character). -/
def pySplitAux (sep : List Char) : Nat → List Char → List Char → List (List Char)
  | 0, rest, cur => [cur.reverse ++ rest]
  | _ + 1, [], cur => [cur.reverse]
  | n + 1, c :: cs, cur =>
    match dropPre sep (c :: cs) with
    | some rest => cur.reverse :: pySplitAux sep n rest []
    | none => pySplitAux sep n cs (c :: cur)

/-- Python `s.split(sep)`. -/
def pySplit (sep s : String) : List String :=
  (pySplitAux sep.toList (s.toList.length + 1) s.toList []).map (fun l => ⟨l⟩)

/-- Models the `'/'.join`-style path join used for `os.path.join` on POSIX components. -/
def joinPath (components : List String) : String :=
  String.intercalate "/" components

/-! ### The external environment

All I/O collaborators of the scraper, as pure deterministic functions.
A fixed `Env` models one run (or several re-runs) against an unchanged
source page, an unchanged remote server and the same CLI options. -/

/-- External capabilities and CLI options of one deployment.
`fetch` returns `(status code, body)` for a URL (`requests.get`);
`validPdf` is the PyPDF2 structural check on file bytes; `hashFn` is MD5 on
file bytes; `urljoin` / `unquote` are the `urllib.parse` helpers;
`now` is the formatted wall-clock date written to the CSV. -/
structure Env where
  resume : Bool
  validateFiles : Bool
  fetch : String → Nat × String
  validPdf : String → Bool
  hashFn : String → String
  urljoin : String → String → String
  unquote : String → String
  now : String

/-! ### File-system model

A flat association list from paths to file contents; `writeFs` is
`open(path, 'wb').write` (truncate-and-replace), `removeFs` is `os.remove`,
`lookupFs` is reading a file. -/

/-- Content of the file at `path`, if any. -/
def lookupFs (fs : List (String × String)) (path : String) : Option String :=
  match fs.find? (fun e => e.1 = path) with
  | some e => some e.2
  | none => none

/-- Write (create or overwrite) the file at `path`. -/
def writeFs (fs : List (String × String)) (path body : String) :
    List (String × String) :=
  (path, body) :: fs.filter (fun e => e.1 ≠ path)

/-- Delete the file at `path`. -/
def removeFs (fs : List (String × String)) (path : String) :
    List (String × String) :=
  fs.filter (fun e => e.1 ≠ path)

/-! ### Board configuration data (`CONFIGS` in `src/main.py`)

`main.py` carries its own `CONFIGS` table whose Edexcel entry deliberately
reuses the anchor identifier `paper1` for both the Paper 1 and the Paper 3
sections (the source page's authoring error). -/

/-- One `paper_sections` entry of a board configuration. -/
structure Section' where
  name : String
  identifier : String
  displayName : Option String
  contentTypes : List String
  subtypes : Option (List String)
deriving DecidableEq

/-- One board configuration (`CONFIGS[key]`). -/
structure Config where
  name : String
  baseUrl : String
  paperSections : List Section'
deriving DecidableEq

/-- The entry `CONFIGS["edexcel_alevel"]["paper_sections"][0]` of `src/main.py`. -/
def mainPaper1Section : Section' :=
  ⟨"Paper 1", "paper1", none, ["QP", "MS"], none⟩

/-- The entry `CONFIGS["edexcel_alevel"]["paper_sections"][1]` of `src/main.py`. -/
def mainPaper2Section : Section' :=
  ⟨"Paper 2", "paper2", none, ["QP", "MS"], none⟩

/-- The entry `CONFIGS["edexcel_alevel"]["paper_sections"][2]` of `src/main.py`:
the Paper 3 section re-uses the `paper1` anchor identifier. -/
def mainPaper3Section : Section' :=
  ⟨"Paper 3", "paper1", some "Paper 3 - Statistics & Mechanics", ["QP", "MS"],
    some ["Mechanics", "Statistics"]⟩

/-- The entry `CONFIGS["edexcel_alevel"]` of `src/main.py`. -/
def mainEdexcelConfig : Config :=
  ⟨"Edexcel A-Level",
    "https://www.physicsandmathstutor.com/maths-revision/a-level-edexcel/papers/",
    [mainPaper1Section, mainPaper2Section, mainPaper3Section]⟩

/-! ### `determine_paper_number` (`src/scrapers.py`, lines 12–84) -/

/-- Builds the `(f"paper {n}", f"Paper {n}")` result pair. -/
def mkPaper (n : String) : String × String := ("paper " ++ n, "Paper " ++ n)

/-- Content-based inference for `ocr_alevel` (URL keyword heuristic). -/
def ocrKeywordPaper (href : String) : Option (String × String) :=
  let h := pyLower href
  if strHas h "pure-mathematics" = true ∧ strHas h "statistics" = false ∧
      strHas h "mechanics" = false then some (mkPaper "1")
  else if strHas h "statistics" = true ∨ strHas h "stats" = true then
    some (mkPaper "2")
  else if strHas h "mechanics" = true ∨ strHas h "mech" = true then
    some (mkPaper "3")
  else none

/-- Content-based inference for `ocr_mei_alevel` (URL keyword heuristic). -/
def ocrMeiKeywordPaper (href : String) : Option (String × String) :=
  let h := pyLower href
  if strHas h "mechanics" = true ∨ strHas h "mech" = true ∨
      strHas h "component-1" = true then some (mkPaper "1")
  else if strHas h "statistics" = true ∨ strHas h "stats" = true ∨
      strHas h "component-2" = true then some (mkPaper "2")
  else if strHas h "comprehension" = true ∨ strHas h "comp" = true ∨
      strHas h "component-3" = true then some (mkPaper "3")
  else none

/-- Embeds `determine_paper_number(href, link_text, config_key)` of
`src/scrapers.py`: per-board resolution of `(paper_number,
paper_display_name)`; `none` embeds the Python `(None, None)` result. -/
def determine_paper_number (href linkText cfgKey : String) :
    Option (String × String) :=
  if cfgKey = "ocr_alevel" then
    match searchTokDigits "Component " linkText with
    | some n => some (mkPaper n)
    | none =>
      match searchTokDigits "component-" (pyLower href) with
      | some n => some (mkPaper n)
      | none => ocrKeywordPaper href
  else if cfgKey = "ocr_mei_alevel" then
    match searchTokDigits "Component " linkText with
    | some n => some (mkPaper n)
    | none =>
      match searchTokDigits "Paper-" href with
      | some n => some (mkPaper n)
      | none => ocrMeiKeywordPaper href
  else if cfgKey = "aqa_alevel" ∨ cfgKey = "edexcel_alevel" then
    match searchTokDigits "Paper-" href with
    | some n =>
      some (pyReplaceChar '-' ' ' (pyLower ("Paper-" ++ n)), "Paper " ++ n)
    | none => none
  else none

/-! ### `extract_metadata` (`src/scrapers.py`, lines 86–142) -/

/-- Month alternation of `src/scrapers.py` line 127:
`re.search(r'(June|October|January|November|Nov)', link_text)` with the
`"Nov" → "November"` normalisation applied afterwards. -/
def scrapersMonthOf (linkText : String) : Option String :=
  match altScan [("June" : String).toList, ("October" : String).toList,
      ("January" : String).toList, ("November" : String).toList,
      ("Nov" : String).toList] linkText.toList with
  | none => none
  | some m => some (if (⟨m⟩ : String) = "Nov" then "November" else ⟨m⟩)

/-- The metadata dictionary produced by `extract_metadata`. -/
structure SMeta where
  paper_type : String
  year : Option String
  month : Option String
  subtype : Option String
  content_type : Option String
  exam_board : String
  level : String
deriving DecidableEq

/-- Embeds `extract_metadata(href, link_text, config_key, paper_number,
paper_display_name)` of `src/scrapers.py`. -/
def extract_metadata (href linkText cfgKey paperNumber paperDisplayName :
    String) : SMeta :=
  let boardLevel : String × String :=
    if cfgKey = "ocr_mei_alevel" then ("ocr-mei", "alevel")
    else ((pySplit "_" cfgKey).getD 0 "", (pySplit "_" cfgKey).getD 1 "")
  let contentType : Option String :=
    if strHas linkText "QP" = true then some "QP"
    else if strHas linkText "MS" = true then some "MS"
    else none
  let subtype : Option String :=
    if cfgKey = "edexcel_alevel" ∧ strHas paperNumber "paper 3" = true then
      if strHas linkText "Mech" = true ∨
          strHas (pyLower linkText) "mech" = true then some "Mechanics"
      else if strHas linkText "Stat" = true ∨
          strHas (pyLower linkText) "stat" = true then some "Statistics"
      else none
    else none
  { paper_type := paperDisplayName
    year := yearSearch linkText
    month := scrapersMonthOf linkText
    subtype := subtype
    content_type := contentType
    exam_board := boardLevel.1
    level := boardLevel.2 }

/-- Content-type detection of `scrape_papers` (`src/scrapers.py`,
lines 206–214): case-sensitive `"QP"` check first, then `"MS"`; returns
`(content_type, display_type)`. -/
def contentTypeOf (linkText : String) : Option (String × String) :=
  if strHas linkText "QP" = true then some ("qp", "question papers")
  else if strHas linkText "MS" = true then some ("ms", "mark schemes")
  else none

/-! ### The per-link body of `scrape_papers` (`src/scrapers.py`, lines 189–277)

The unified pipeline has no resume/known-set check and no validation; its
tracking CSV rows carry ten columns (no hash, no validated flag). -/

/-- One row of the unified pipeline's tracking CSV
(`utils.add_to_tracking_csv`). -/
structure SRow where
  filename : String
  exam_board : String
  level : String
  paper_type : String
  subtype : Option String
  content_type : String
  year : Option String
  month : Option String
  file_path : String
  download_date : String
deriving DecidableEq

/-- Mutable state observed by the unified pipeline: the file system, the
tracking CSV rows, and the log of URLs passed to `requests.get` (download
attempts). -/
structure SState where
  fs : List (String × String)
  rows : List SRow
  fetched : List String
deriving DecidableEq

/-- How one link was disposed of by the `scrape_papers` loop body. -/
inductive SOutcome
  | crashedRedirect
  | skippedNoPaper
  | skippedNoContentType
  | downloadFailed
  | recorded
deriving DecidableEq

/-- The per-link body of `scrape_papers` (`src/scrapers.py`), with
`dry_run=False`: redirect-page unwrapping, `determine_paper_number`,
QP/MS content-type detection, metadata extraction, path composition
`[base_path, level, exam_board, paper_number, content_type]`, download with
a single retry on status 400, file write and CSV append on status 200.
`crashedRedirect` embeds the uncaught `IndexError` raised when a
`pdf-pages` URL lacks a `?pdf=` parameter. -/
def scrapersStep (env : Env) (cfgKey basePath : String) (st : SState)
    (lnk : String × String) : SState × SOutcome :=
  let href0 := lnk.1
  let linkText := lnk.2
  let hrefE : Option String :=
    if strHas href0 "pdf-pages" = true then
      match pySplit "?pdf=" href0 with
      | _ :: p :: _ => some (env.unquote p)
      | _ => none
    else some href0
  match hrefE with
  | none => (st, SOutcome.crashedRedirect)
  | some href =>
    match determine_paper_number href linkText cfgKey with
    | none => (st, SOutcome.skippedNoPaper)
    | some (paperNumber, paperDisplayName) =>
      match contentTypeOf linkText with
      | none => (st, SOutcome.skippedNoContentType)
      | some (contentType, _displayType) =>
        let md0 := extract_metadata href linkText cfgKey paperNumber
          paperDisplayName
        let md := { md0 with content_type := some (pyUpper contentType) }
        let filename := basename href
        let folderComponents :=
          [basePath, md.level, md.exam_board, paperNumber, contentType]
        let savePath := joinPath (folderComponents ++ [filename])
        let st1 := { st with fetched := st.fetched ++ [href] }
        let r0 := env.fetch href
        let str : SState × Nat × String :=
          if r0.1 = 400 then
            ({ st1 with fetched := st1.fetched ++ [href] }, env.fetch href)
          else (st1, r0)
        let st2 := str.1
        let r := str.2
        if r.1 = 200 then
          let row : SRow :=
            { filename := filename
              exam_board := md.exam_board
              level := md.level
              paper_type := md.paper_type
              subtype := md.subtype
              content_type := pyUpper contentType
              year := md.year
              month := md.month
              file_path := savePath
              download_date := env.now }
          ({ st2 with
              fs := writeFs st2.fs savePath r.2
              rows := st2.rows ++ [row] }, SOutcome.recorded)
        else (st2, SOutcome.downloadFailed)

/-! ### The orchestrator (`src/main.py`, `scrape_pmt_papers`)

The primary, resumable pipeline.  Its ledger rows carry the twelve-column
schema with hash and validation flag; a link's content type comes from the
heading of the containing page division, not from the link text. -/

/-- One row of the orchestrator's tracking CSV
(`add_to_tracking_csv` in `src/main.py`). -/
structure LedgerEntry where
  filename : String
  exam_board : String
  level : String
  paper_type : String
  subtype : Option String
  content_type : String
  year : String
  month : Option String
  file_path : String
  download_date : String
  content_hash : String
  validated : Bool
deriving DecidableEq

/-- Mutable state observed by the orchestrator: file system, ledger
(tracking CSV) and the log of URLs handed to the transfer capability. -/
structure OrchState where
  fs : List (String × String)
  ledger : List LedgerEntry
  fetched : List String
deriving DecidableEq

/-- How one link was disposed of by the orchestrator's loop body. -/
inductive Outcome
  | skippedNoYear
  | skippedKnown
  | downloadFailed
  | invalidPdf
  | recorded
deriving DecidableEq

/-- The twelve month names of the `main.py` month regex
(`re.search(r'(January|...|December)', link_text, re.IGNORECASE)`). -/
def monthAlts12 : List (List Char) :=
  [("January" : String).toList, ("February" : String).toList,
   ("March" : String).toList, ("April" : String).toList,
   ("May" : String).toList, ("June" : String).toList,
   ("July" : String).toList, ("August" : String).toList,
   ("September" : String).toList, ("October" : String).toList,
   ("November" : String).toList, ("December" : String).toList]

/-- Month extraction of the orchestrator: case-insensitive twelve-name
alternation, result `capitalize`d. -/
def mainMonthOf (linkText : String) : Option String :=
  (altScanCI monthAlts12 linkText.toList).map
    (fun m => pyCapitalize ⟨m⟩)

/-- Computes `href if href.startswith('http') else urljoin(base_url, href)`. -/
def mainFullUrl (env : Env) (baseUrl href : String) : String :=
  if pyStartsWith href "http" = true then href else env.urljoin baseUrl href

/-- Filename resolution of the orchestrator: the basename of the full URL,
or — when it lacks the `.pdf` extension — the stripped link text with
filesystem-unsafe characters replaced by `_` and `.pdf` appended. -/
def mainFilename (env : Env) (baseUrl : String) (lnk : String × String ×
    String) : String :=
  let f0 := basename (mainFullUrl env baseUrl lnk.1)
  if pyEndsWith f0 ".pdf" = true then f0
  else
    pyReplaceChar '<' '_' (pyReplaceChar '>' '_' (pyReplaceChar ':' '_'
      (pyReplaceChar '\x22' '_' (pyReplaceChar '/' '_' (pyReplaceChar '\\' '_'
      (pyReplaceChar '|' '_' (pyReplaceChar '?' '_' (pyReplaceChar '*' '_'
      (pyStrip lnk.2.1 ++ ".pdf")))))))))

/-- Subtype extraction of the orchestrator (`main.py` lines 392–396):
first declared subtype whose lower-cased full name, or parenthesised
4-character lower-cased abbreviation, occurs in the lower-cased link text. -/
def mainSubtype0 (sec : Section') (linkText : String) : Option String :=
  match sec.subtypes with
  | none => none
  | some subs =>
    subs.find? (fun sub =>
      strHas (pyLower linkText) (pyLower sub) ||
      strHas (pyLower linkText) ("(" ++ pyLower (pyTake 4 sub) ++ ")"))

/-- Subtype re-detection applied by the folder-building block
(`main.py` lines 425–433): only when the paper label contains `Paper 3`
and a subtype was already extracted; the parenthesised literals are
checked case-sensitively and may overwrite the extracted subtype. -/
def mainSubtypeFinal (paperType linkText : String) (sub0 : Option String) :
    Option String :=
  if strHas paperType "Paper 3" = true ∧ sub0.isSome = true then
    if strHas linkText "(Mech)" = true ∨ strHas linkText "(Mechanics)" = true
      then some "Mechanics"
    else if strHas linkText "(Stats)" = true ∨
        strHas linkText "(Statistics)" = true then some "Statistics"
    else sub0
  else sub0

/-- Folder components of the orchestrator (`main.py` lines 417–437):
`[base, Board, LEVEL, paper_label(spaces→underscores)]`, then the subtype
when the paper label contains `Paper 3` and a subtype is present, then
`question_papers` / `mark_schemes` keyed on the content type. -/
def mainFolderComponents (cfgKey : String) (sec : Section')
    (basePath linkText contentType : String) : List String :=
  let board := (pySplit "_" cfgKey).getD 0 ""
  let level := (pySplit "_" cfgKey).getD 1 ""
  let paperType := sec.name
  let sub0 := mainSubtype0 sec linkText
  [basePath, pyCapitalize board, pyUpper level,
      pyReplaceChar ' ' '_' paperType] ++
    (if strHas paperType "Paper 3" = true ∧ sub0.isSome = true then
      [(mainSubtypeFinal paperType linkText sub0).getD ""] else []) ++
    [if contentType = "QP" then "question_papers" else "mark_schemes"]

/-- Full save path of one link under the orchestrator. -/
def mainSavePath (env : Env) (cfgKey baseUrl : String) (sec : Section')
    (basePath : String) (lnk : String × String × String) : String :=
  joinPath (mainFolderComponents cfgKey sec basePath lnk.2.1 lnk.2.2 ++
    [mainFilename env baseUrl lnk])

/-- Embeds `download_file_with_progress` (`src/main.py`): up to `fuel` attempts;
each attempt calls the transfer capability, writes the streamed body to
`savePath` on any non-error status (`raise_for_status` raises from 400 up)
and otherwise backs off and retries.  Every attempt is logged in
`fetched`. -/
def downloadLoop (env : Env) (url savePath : String) (st : OrchState) :
    Nat → OrchState × Bool
  | 0 => (st, false)
  | n + 1 =>
    let st1 := { st with fetched := st.fetched ++ [url] }
    let r := env.fetch url
    if r.1 < 400 then
      ({ st1 with fs := writeFs st1.fs savePath r.2 }, true)
    else downloadLoop env url savePath st1 n

/-- The ledger entry written for one successfully processed link
(pure description; the step lemmas show `mainProcessLink` appends exactly
this row when it records). -/
def mainEntryOf (env : Env) (cfgKey baseUrl : String) (sec : Section')
    (basePath : String) (lnk : String × String × String) : LedgerEntry :=
  let body := (env.fetch (mainFullUrl env baseUrl lnk.1)).2
  { filename := mainFilename env baseUrl lnk
    exam_board := (pySplit "_" cfgKey).getD 0 ""
    level := (pySplit "_" cfgKey).getD 1 ""
    paper_type := sec.name
    subtype := mainSubtypeFinal sec.name lnk.2.1 (mainSubtype0 sec lnk.2.1)
    content_type := lnk.2.2
    year := (yearSearch lnk.2.1).getD ""
    month := mainMonthOf lnk.2.1
    file_path := mainSavePath env cfgKey baseUrl sec basePath lnk
    download_date := env.now
    content_hash := env.hashFn body
    validated := env.validateFiles }

/-- The per-link body of `scrape_pmt_papers` (`src/main.py` lines 365–477).
A link is `(href, link_text, content_type)` — the content type was read off
the heading of the containing division.  Steps, in source order: metadata
extraction; skip when the year is missing; filename resolution; skip when
resuming and the filename is in the known set; folder composition; transfer
with retries; validation (on failure: delete the file, no ledger row);
hash computation; ledger append. -/
def mainProcessLink (env : Env) (cfgKey baseUrl : String) (sec : Section')
    (basePath : String) (known : List String) (st : OrchState)
    (lnk : String × String × String) : OrchState × Outcome :=
  let href := lnk.1
  let linkText := lnk.2.1
  let fullUrl := mainFullUrl env baseUrl href
  match yearSearch linkText with
  | none => (st, Outcome.skippedNoYear)
  | some _ =>
    let filename := mainFilename env baseUrl lnk
    if env.resume = true ∧ filename ∈ known then (st, Outcome.skippedKnown)
    else
      let savePath := mainSavePath env cfgKey baseUrl sec basePath lnk
      let dl := downloadLoop env fullUrl savePath st 3
      let st1 := dl.1
      if dl.2 = true then
        let validated : Bool :=
          match lookupFs st1.fs savePath with
          | some b => env.validPdf b
          | none => false
        if env.validateFiles = true ∧ validated = false then
          ({ st1 with fs := removeFs st1.fs savePath }, Outcome.invalidPdf)
        else
          let fileHash :=
            match lookupFs st1.fs savePath with
            | some b => env.hashFn b
            | none => ""
          let e := mainEntryOf env cfgKey baseUrl sec basePath lnk
          ({ st1 with ledger := st1.ledger ++
              [{ e with content_hash := fileHash }] }, Outcome.recorded)
      else (st1, Outcome.downloadFailed)

/-- The orchestrator's loop over the links of one section. -/
def runMainLinks (env : Env) (cfgKey baseUrl : String) (sec : Section')
    (basePath : String) (known : List String) (st : OrchState) :
    List (String × String × String) → OrchState
  | [] => st
  | lnk :: rest =>
    runMainLinks env cfgKey baseUrl sec basePath known
      (mainProcessLink env cfgKey baseUrl sec basePath known st lnk).1 rest

/-! ### Page model and section resolution (`src/main.py` lines 295–361)

The parsed source page is modelled as the sibling sequence the orchestrator
walks: `h4` headings (each possibly carrying an `<a id=...>` anchor),
content divisions (with the text of their `h5`/`h6` heading and their
hyperlinks), horizontal rules, and other elements. -/

/-- An `h4` heading, with the `id` of the anchor it contains, if any. -/
structure Heading where
  anchorId : Option String
  text : String
deriving DecidableEq

/-- One sibling element of the parsed page. -/
inductive Elem
  | h4 : Heading → Elem
  | contentDiv : Option String → List (String × String) → Elem
  | hr : Elem
  | other : Elem
deriving DecidableEq

/-- Embeds `soup.find('a', id=identifier)` followed by `find_parent(heading)`:
position of the first heading carrying the anchor `ident`. -/
def findAnchorPos (ident : String) : List Elem → Nat → Option Nat
  | [], _ => none
  | Elem.h4 h :: rest, i =>
    if h.anchorId = some ident then some i
    else findAnchorPos ident rest (i + 1)
  | _ :: rest, i => findAnchorPos ident rest (i + 1)

/-- Forward scan (`main.py` lines 315–324): starting from the current
heading (inclusive), the first `h4` whose text contains `Paper 3`. -/
def findPaper3H4 : List Elem → Nat → Option Nat
  | [], _ => none
  | Elem.h4 h :: rest, i =>
    if strHas h.text "Paper 3" = true then some i
    else findPaper3H4 rest (i + 1)
  | _ :: rest, i => findPaper3H4 rest (i + 1)

/-- Position of the heading a section resolves to: the first heading
carrying the section's anchor identifier; for a section whose
`display_name` contains `Paper 3`, re-anchored to the next `h4` (scanning
forward from the anchored heading) whose text contains `Paper 3` — if no
such heading exists the anchored heading is kept. -/
def sectionHeadingPos (page : List Elem) (sec : Section') : Option Nat :=
  match findAnchorPos sec.identifier page 0 with
  | none => none
  | some p =>
    let reanchor :=
      match sec.displayName with
      | some d => strHas d "Paper 3"
      | none => false
    if reanchor = true then some ((findPaper3H4 (page.drop p) p).getD p)
    else some p

/-- Embeds `find_next_sibling('div')`: drop elements until the first content
division (skipping heading/rule siblings, as BeautifulSoup does). -/
def dropToFirstDiv : List Elem → Option (List Elem)
  | [] => none
  | Elem.contentDiv h l :: rest => some (Elem.contentDiv h l :: rest)
  | _ :: rest => dropToFirstDiv rest

/-- The sibling walk of `main.py` lines 337–359: collect `(href, text,
content_type)` from content divisions whose heading mentions `Question`
(QP) or `Mark`/`MS` (MS), until a rule or a heading is reached. -/
def collectLinksFrom : List Elem → List (String × String × String)
  | [] => []
  | Elem.hr :: _ => []
  | Elem.h4 _ :: _ => []
  | Elem.contentDiv hd links :: rest =>
    (match hd with
     | some t =>
       if strHas t "Question" = true then
         links.map (fun p => (p.1, p.2, "QP"))
       else if strHas t "Mark" = true ∨ strHas t "MS" = true then
         links.map (fun p => (p.1, p.2, "MS"))
       else []
     | none => []) ++ collectLinksFrom rest
  | Elem.other :: rest => collectLinksFrom rest

/-- Section resolution and link harvesting for one section: `none` when the
anchor or the content container cannot be located (the section is skipped
with a warning). -/
def collectSectionLinks (page : List Elem) (sec : Section') :
    Option (List (String × String × String)) :=
  match sectionHeadingPos page sec with
  | none => none
  | some p =>
    match dropToFirstDiv (page.drop (p + 1)) with
    | none => none
    | some tail => some (collectLinksFrom tail)

/-- The orchestrator's loop over the sections of a board profile
(`main.py` lines 295–479): a section whose anchor or container is missing
is skipped, otherwise its links are processed in page order. -/
def runSections (env : Env) (cfgKey baseUrl basePath : String)
    (known : List String) (page : List Elem) (st : OrchState) :
    List Section' → OrchState
  | [] => st
  | sec :: rest =>
    let st' :=
      match collectSectionLinks page sec with
      | none => st
      | some links =>
        runMainLinks env cfgKey baseUrl sec basePath known st links
    runSections env cfgKey baseUrl basePath known page st' rest

/-- One full orchestrator run (`scrape_pmt_papers`) over a board
configuration against a fixed parsed page, starting from a given known
filename set and state. -/
def runBoard (env : Env) (cfgKey : String) (cfg : Config)
    (basePath : String) (known : List String) (page : List Elem)
    (st : OrchState) : OrchState :=
  runSections env cfgKey cfg.baseUrl basePath known page st
    cfg.paperSections

/-! ### Characterisation lemmas for the orchestrator step -/

/-- The conditions under which the orchestrator's per-link body reaches the
ledger append: year present, not skipped by the resume check, transfer
succeeded, validation (when enabled) passed.  All four are independent of
the pre-link state. -/
def MainRecords (env : Env) (baseUrl : String) (known : List String)
    (lnk : String × String × String) : Prop :=
  (yearSearch lnk.2.1).isSome = true ∧
  ¬(env.resume = true ∧ mainFilename env baseUrl lnk ∈ known) ∧
  (env.fetch (mainFullUrl env baseUrl lnk.1)).1 < 400 ∧
  ¬(env.validateFiles = true ∧
      env.validPdf (env.fetch (mainFullUrl env baseUrl lnk.1)).2 = false)

instance (env : Env) (baseUrl : String) (known : List String)
    (lnk : String × String × String) :
    Decidable (MainRecords env baseUrl known lnk) := by
  unfold MainRecords; infer_instance

/-- The rows appended by `runMainLinks`: one `mainEntryOf` row per link
satisfying `MainRecords`, in page order. -/
def recordedRows (env : Env) (cfgKey baseUrl : String) (sec : Section')
    (basePath : String) (known : List String)
    (links : List (String × String × String)) : List LedgerEntry :=
  links.filterMap (fun l =>
    if MainRecords env baseUrl known l then
      some (mainEntryOf env cfgKey baseUrl sec basePath l)
    else none)

/-- The rows appended by `runSections` for one section (empty when the
section's anchor or container is missing). -/
def sectionRows (env : Env) (cfgKey baseUrl : String) (basePath : String)
    (known : List String) (page : List Elem) (sec : Section') :
    List LedgerEntry :=
  match collectSectionLinks page sec with
  | none => []
  | some links => recordedRows env cfgKey baseUrl sec basePath known links

/-! ### Concrete environments, pages and spec-worded comparators used by
the claim statements and their witnesses -/

/-- Concrete deterministic environment used by the witness runs. -/
def stdEnv : Env :=
  { resume := true, validateFiles := true,
    fetch := fun _ => (200, "PDF"), validPdf := fun _ => true,
    hashFn := fun b => b ++ "#", urljoin := fun _ h => h,
    unquote := fun s => s, now := "2026-10-12" }

/-- Concrete parsed page for the C1 witness run (the Edexcel layout with
the shared `paper1` anchor). -/
def c1Page : List Elem :=
  [Elem.h4 ⟨some "paper1", "Paper 1"⟩,
   Elem.contentDiv (some "Question Papers")
     [("http://x/a.pdf", "June 2022 QP")],
   Elem.hr,
   Elem.h4 ⟨some "paper2", "Paper 2"⟩,
   Elem.contentDiv (some "Question Papers") [],
   Elem.hr,
   Elem.h4 ⟨some "paper1", "Paper 3 - Statistics & Mechanics"⟩,
   Elem.contentDiv (some "Question Papers")
     [("http://x/c.pdf", "June 2021 (Mech) QP")],
   Elem.hr]

/-- The layout of the Edexcel source page relevant to the shared-anchor
quirk: three paper blocks, each a heading followed by its question-paper
and mark-scheme divisions and closed by a rule; the Paper 1 and Paper 3
headings both carry the anchor identifier `paper1` (the upstream authoring
error), and the link lists of the divisions are arbitrary. -/
def c2Page (l1q l1m l2q l2m l3q l3m : List (String × String)) : List Elem :=
  [Elem.h4 ⟨some "paper1", "Paper 1"⟩,
   Elem.contentDiv (some "Question Papers") l1q,
   Elem.contentDiv (some "Mark Schemes") l1m,
   Elem.hr,
   Elem.h4 ⟨some "paper2", "Paper 2"⟩,
   Elem.contentDiv (some "Question Papers") l2q,
   Elem.contentDiv (some "Mark Schemes") l2m,
   Elem.hr,
   Elem.h4 ⟨some "paper1", "Paper 3 - Statistics & Mechanics"⟩,
   Elem.contentDiv (some "Question Papers") l3q,
   Elem.contentDiv (some "Mark Schemes") l3m,
   Elem.hr]

/-- Priority choice between two optional results (`a` wins when present). -/
def orElseO {α : Type} (a b : Option α) : Option α :=
  match a with
  | some x => some x
  | none => b

/-- Modelled from the spec (refinement comparison for C6): «match anchor
text against a fixed enumerated set of the twelve month names
(case-insensitive), normalizing abbreviations (e.g. "Nov" → "November")». -/
def specMonthExtract (t : String) : Option String :=
  match altScanCI (monthAlts12 ++ [("Nov" : String).toList]) t.toList with
  | none => none
  | some m =>
    let s := pyCapitalize ⟨m⟩
    some (if s = "Nov" then "November" else s)

/-- Modelled from the spec (refinement comparison for C7): «base_path /
board / level / paper_label / [subtype, if present] /
content_type_folder». -/
def specDirectoryClaim (base board level label : String)
    (sub : Option String) (ctFolder : String) : String :=
  joinPath ([base, board, level, label] ++
    (match sub with | some s => [s] | none => []) ++ [ctFolder])

theorem lookupFs_writeFs_self (fs : List (String × String)) (p b : String) :
    lookupFs (writeFs fs p b) p = some b := by
  simp [lookupFs, writeFs]

theorem lookupFs_removeFs_self (fs : List (String × String)) (p : String) :
    lookupFs (removeFs fs p) p = none := by
  simp only [lookupFs, removeFs]
  rw [List.find?_eq_none.mpr]
  intro e he
  have := (List.mem_filter.mp he).2
  simpa using this

theorem downloadLoop_ledger (env : Env) (url savePath : String)
    (st : OrchState) : ∀ n, (downloadLoop env url savePath st n).1.ledger =
      st.ledger := by
  intro n
  induction n generalizing st with
  | zero => rfl
  | succ n ih =>
    simp only [downloadLoop]
    split
    · rfl
    · exact ih _

theorem downloadLoop_ok (env : Env) (url savePath : String) (st : OrchState)
    (h : (env.fetch url).1 < 400) (n : Nat) :
    downloadLoop env url savePath st (n + 1) =
      ({ st with
          fetched := st.fetched ++ [url]
          fs := writeFs st.fs savePath (env.fetch url).2 }, true) := by
  simp [downloadLoop, h]

theorem downloadLoop_fail (env : Env) (url savePath : String)
    (h : ¬(env.fetch url).1 < 400) :
    ∀ n st, downloadLoop env url savePath st n =
      ({ st with fetched := st.fetched ++ List.replicate n url }, false) := by
  intro n
  induction n with
  | zero => intro st; simp [downloadLoop]
  | succ n ih =>
    intro st
    simp only [downloadLoop, if_neg h, ih, List.replicate_succ]
    simp

/-- Missing year: the link is dropped before the resume check, with the
state untouched. -/
theorem mainProcessLink_noYear (env : Env) (cfgKey baseUrl : String)
    (sec : Section') (basePath : String) (known : List String)
    (st : OrchState) (lnk : String × String × String)
    (h : yearSearch lnk.2.1 = none) :
    mainProcessLink env cfgKey baseUrl sec basePath known st lnk =
      (st, Outcome.skippedNoYear) := by
  simp [mainProcessLink, h]

/-- Resume skip: with resume enabled and the resolved filename known, the
link is dropped after the year check, with the state untouched. -/
theorem mainProcessLink_known (env : Env) (cfgKey baseUrl : String)
    (sec : Section') (basePath : String) (known : List String)
    (st : OrchState) (lnk : String × String × String) (y : String)
    (hy : yearSearch lnk.2.1 = some y) (hres : env.resume = true)
    (hmem : mainFilename env baseUrl lnk ∈ known) :
    mainProcessLink env cfgKey baseUrl sec basePath known st lnk =
      (st, Outcome.skippedKnown) := by
  simp [mainProcessLink, hy, hres, hmem]

/-- Transfer failure branch: three logged attempts, nothing written,
nothing recorded. -/
theorem mainProcessLink_dlFail (env : Env) (cfgKey baseUrl : String)
    (sec : Section') (basePath : String) (known : List String)
    (st : OrchState) (lnk : String × String × String) (y : String)
    (hy : yearSearch lnk.2.1 = some y)
    (hk : ¬(env.resume = true ∧ mainFilename env baseUrl lnk ∈ known))
    (hf : ¬(env.fetch (mainFullUrl env baseUrl lnk.1)).1 < 400) :
    mainProcessLink env cfgKey baseUrl sec basePath known st lnk =
      ({ st with fetched := st.fetched ++
          List.replicate 3 (mainFullUrl env baseUrl lnk.1) },
        Outcome.downloadFailed) := by
  simp [mainProcessLink, hy, hk, downloadLoop_fail env _ _ hf]

/-- Validation failure branch: one transfer, the written file removed
again, nothing recorded. -/
theorem mainProcessLink_invalid (env : Env) (cfgKey baseUrl : String)
    (sec : Section') (basePath : String) (known : List String)
    (st : OrchState) (lnk : String × String × String) (y : String)
    (hy : yearSearch lnk.2.1 = some y)
    (hk : ¬(env.resume = true ∧ mainFilename env baseUrl lnk ∈ known))
    (hf : (env.fetch (mainFullUrl env baseUrl lnk.1)).1 < 400)
    (hv : env.validateFiles = true ∧
      env.validPdf (env.fetch (mainFullUrl env baseUrl lnk.1)).2 = false) :
    mainProcessLink env cfgKey baseUrl sec basePath known st lnk =
      ({ st with
          fetched := st.fetched ++ [mainFullUrl env baseUrl lnk.1]
          fs := removeFs
            (writeFs st.fs (mainSavePath env cfgKey baseUrl sec basePath lnk)
              (env.fetch (mainFullUrl env baseUrl lnk.1)).2)
            (mainSavePath env cfgKey baseUrl sec basePath lnk) },
        Outcome.invalidPdf) := by
  simp [mainProcessLink, hy, hk, downloadLoop_ok env _ _ st hf,
    lookupFs_writeFs_self, hv]

/-- Recording branch: one transfer, the body written at the save path, and
exactly the `mainEntryOf` row appended to the ledger. -/
theorem mainProcessLink_recorded_eq (env : Env) (cfgKey baseUrl : String)
    (sec : Section') (basePath : String) (known : List String)
    (st : OrchState) (lnk : String × String × String)
    (h : MainRecords env baseUrl known lnk) :
    mainProcessLink env cfgKey baseUrl sec basePath known st lnk =
      ({ st with
          fetched := st.fetched ++ [mainFullUrl env baseUrl lnk.1]
          fs := writeFs st.fs (mainSavePath env cfgKey baseUrl sec basePath
            lnk) (env.fetch (mainFullUrl env baseUrl lnk.1)).2
          ledger := st.ledger ++
            [mainEntryOf env cfgKey baseUrl sec basePath lnk] },
        Outcome.recorded) := by
  obtain ⟨h1, hk, hf, hv⟩ := h
  obtain ⟨y, hy⟩ := Option.isSome_iff_exists.mp h1
  simp [mainProcessLink, hy, hk, downloadLoop_ok env _ _ st hf,
    lookupFs_writeFs_self, hv, mainEntryOf]

/-- The per-link body records a ledger row exactly under `MainRecords`. -/
theorem mainProcessLink_recorded_iff (env : Env) (cfgKey baseUrl : String)
    (sec : Section') (basePath : String) (known : List String)
    (st : OrchState) (lnk : String × String × String) :
    (mainProcessLink env cfgKey baseUrl sec basePath known st lnk).2 =
      Outcome.recorded ↔ MainRecords env baseUrl known lnk := by
  constructor
  · intro h
    cases hy : yearSearch lnk.2.1 with
    | none =>
      rw [mainProcessLink_noYear env cfgKey baseUrl sec basePath known st lnk
        hy] at h
      exact absurd h (by simp)
    | some y =>
      by_cases hk : env.resume = true ∧ mainFilename env baseUrl lnk ∈ known
      · rw [mainProcessLink_known env cfgKey baseUrl sec basePath known st lnk
          y hy hk.1 hk.2] at h
        exact absurd h (by simp)
      · by_cases hf : (env.fetch (mainFullUrl env baseUrl lnk.1)).1 < 400
        · by_cases hv : env.validateFiles = true ∧
            env.validPdf (env.fetch (mainFullUrl env baseUrl lnk.1)).2 = false
          · rw [mainProcessLink_invalid env cfgKey baseUrl sec basePath known
              st lnk y hy hk hf hv] at h
            exact absurd h (by simp)
          · exact ⟨by simp [hy], hk, hf, hv⟩
        · rw [mainProcessLink_dlFail env cfgKey baseUrl sec basePath known st
            lnk y hy hk hf] at h
          exact absurd h (by simp)
  · intro h
    rw [mainProcessLink_recorded_eq env cfgKey baseUrl sec basePath known st
      lnk h]

/-- The ledger after one link: exactly one row — `mainEntryOf` — is appended
when `MainRecords` holds, and nothing otherwise. -/
theorem mainProcessLink_ledger (env : Env) (cfgKey baseUrl : String)
    (sec : Section') (basePath : String) (known : List String)
    (st : OrchState) (lnk : String × String × String) :
    (mainProcessLink env cfgKey baseUrl sec basePath known st lnk).1.ledger =
      if MainRecords env baseUrl known lnk then
        st.ledger ++ [mainEntryOf env cfgKey baseUrl sec basePath lnk]
      else st.ledger := by
  cases hy : yearSearch lnk.2.1 with
  | none => simp [mainProcessLink, MainRecords, hy]
  | some y =>
    by_cases hk : env.resume = true ∧ mainFilename env baseUrl lnk ∈ known
    · simp [mainProcessLink, MainRecords, hy, hk]
    · by_cases hf : (env.fetch (mainFullUrl env baseUrl lnk.1)).1 < 400
      · by_cases hv : env.validateFiles = true ∧
            env.validPdf (env.fetch (mainFullUrl env baseUrl lnk.1)).2 = false
        · simp [mainProcessLink, MainRecords, hy, hk, hf, hv,
            downloadLoop_ok env _ _ st hf, lookupFs_writeFs_self]
        · simp [mainProcessLink, MainRecords, hy, hk, hf, hv,
            downloadLoop_ok env _ _ st hf, lookupFs_writeFs_self, mainEntryOf]
      · simp [mainProcessLink, MainRecords, hy, hk, hf,
          downloadLoop_fail env _ _ hf]

/-- With resume enabled, a link that records against a larger known set
also records against the smaller one, and its resolved filename is outside
the larger set. -/
theorem mainRecords_mono (env : Env) (baseUrl : String)
    (known known₂ : List String) (lnk : String × String × String)
    (hres : env.resume = true) (hsub : ∀ f ∈ known, f ∈ known₂)
    (h : MainRecords env baseUrl known₂ lnk) :
    MainRecords env baseUrl known lnk ∧
      mainFilename env baseUrl lnk ∉ known₂ := by
  obtain ⟨h1, h2, h3, h4⟩ := h
  have hnot : mainFilename env baseUrl lnk ∉ known₂ := fun hm => h2 ⟨hres, hm⟩
  exact ⟨⟨h1, fun hc => hnot (hsub _ hc.2), h3, h4⟩, hnot⟩

theorem runMainLinks_ledger (env : Env) (cfgKey baseUrl : String)
    (sec : Section') (basePath : String) (known : List String) :
    ∀ (links : List (String × String × String)) (st : OrchState),
    (runMainLinks env cfgKey baseUrl sec basePath known st links).ledger =
      st.ledger ++ recordedRows env cfgKey baseUrl sec basePath known links
    := by
  intro links
  induction links with
  | nil => intro st; simp [runMainLinks, recordedRows]
  | cons l rest ih =>
    intro st
    simp only [runMainLinks, recordedRows, List.filterMap_cons]
    by_cases h : MainRecords env baseUrl known l
    · rw [if_pos h, ih]
      rw [mainProcessLink_ledger, if_pos h]
      simp [recordedRows]
    · rw [if_neg h, ih]
      rw [mainProcessLink_ledger, if_neg h]
      rfl

theorem runSections_ledger (env : Env) (cfgKey baseUrl basePath : String)
    (known : List String) (page : List Elem) :
    ∀ (secs : List Section') (st : OrchState),
    (runSections env cfgKey baseUrl basePath known page st secs).ledger =
      st.ledger ++
        (secs.map (sectionRows env cfgKey baseUrl basePath known page)).flatten
    := by
  intro secs
  induction secs with
  | nil => intro st; simp [runSections]
  | cons sec rest ih =>
    intro st
    simp only [runSections, List.map_cons, List.flatten_cons]
    cases hc : collectSectionLinks page sec with
    | none => rw [ih]; simp [sectionRows, hc]
    | some links => rw [ih]; simp [sectionRows, hc, runMainLinks_ledger]

theorem filterMap_eq_nil_of_none {α β : Type} (f : α → Option β) :
    ∀ l : List α, (∀ a ∈ l, f a = none) → l.filterMap f = [] := by
  intro l
  induction l with
  | nil => intro _; rfl
  | cons a rest ih =>
    intro h
    simp only [List.filterMap_cons, h a (by simp)]
    exact ih (fun x hx => h x (by simp [hx]))

theorem flatten_eq_nil_of_nil {α : Type} :
    ∀ l : List (List α), (∀ x ∈ l, x = []) → l.flatten = [] := by
  intro l
  induction l with
  | nil => intro _; rfl
  | cons a rest ih =>
    intro h
    simp only [List.flatten_cons, h a (by simp)]
    exact ih (fun x hx => h x (by simp [hx]))

/-- A link of a located section that records during a run contributes its
`mainEntryOf` row to the run's final ledger. -/
theorem mainEntry_mem_run (env : Env) (cfgKey : String) (cfg : Config)
    (basePath : String) (known : List String) (page : List Elem)
    (st : OrchState) (sec : Section')
    (links : List (String × String × String))
    (lnk : String × String × String)
    (hsec : sec ∈ cfg.paperSections)
    (hcol : collectSectionLinks page sec = some links) (hl : lnk ∈ links)
    (hrec : MainRecords env cfg.baseUrl known lnk) :
    mainEntryOf env cfgKey cfg.baseUrl sec basePath lnk ∈
      (runBoard env cfgKey cfg basePath known page st).ledger := by
  unfold runBoard
  rw [runSections_ledger]
  apply List.mem_append_right
  rw [List.mem_flatten]
  refine ⟨sectionRows env cfgKey cfg.baseUrl basePath known page sec,
    List.mem_map_of_mem _ hsec, ?_⟩
  unfold sectionRows
  rw [hcol]
  unfold recordedRows
  exact List.mem_filterMap.mpr ⟨lnk, hl, by rw [if_pos hrec]⟩

/-- C1.  With resume enabled: (a) any link whose resolved filename is in
the known set loaded at run start is dropped with the state — file system,
ledger and transfer log — untouched (no transfer, no ledger row); (b) as a
consequence, re-running the orchestrator over the same page, the same
environment and a known set covering every filename in the first run's
ledger appends no ledger row at all: the ledger after the second run equals
the ledger after the first. -/
theorem claim1_resume_skip_idempotent (env : Env) (cfgKey : String)
    (cfg : Config) (basePath : String) (known known₂ : List String)
    (page : List Elem) (st : OrchState)
    (hres : env.resume = true)
    (hsub : ∀ f ∈ known, f ∈ known₂)
    (hled : ∀ e ∈ (runBoard env cfgKey cfg basePath known page st).ledger,
      e.filename ∈ known₂) :
    (∀ (sec : Section') (lnk : String × String × String) (st' : OrchState),
        mainFilename env cfg.baseUrl lnk ∈ known₂ →
        (mainProcessLink env cfgKey cfg.baseUrl sec basePath known₂ st'
          lnk).1 = st') ∧
    (runBoard env cfgKey cfg basePath known₂ page
        (runBoard env cfgKey cfg basePath known page st)).ledger =
      (runBoard env cfgKey cfg basePath known page st).ledger := by
  have hnorec : ∀ (sec : Section')
      (links : List (String × String × String))
      (lnk : String × String × String), sec ∈ cfg.paperSections →
      collectSectionLinks page sec = some links → lnk ∈ links →
      ¬ MainRecords env cfg.baseUrl known₂ lnk := by
    intro sec links lnk hsec hcol hl h
    obtain ⟨hrec, hnot⟩ := mainRecords_mono env cfg.baseUrl known known₂ lnk
      hres hsub h
    have hmem := mainEntry_mem_run env cfgKey cfg basePath known page st sec
      links lnk hsec hcol hl hrec
    have := hled _ hmem
    exact hnot this
  constructor
  · intro sec lnk st' hm
    cases hy : yearSearch lnk.2.1 with
    | none =>
      rw [mainProcessLink_noYear env cfgKey cfg.baseUrl sec basePath known₂
        st' lnk hy]
    | some y =>
      rw [mainProcessLink_known env cfgKey cfg.baseUrl sec basePath known₂
        st' lnk y hy hres hm]
  · unfold runBoard
    rw [runSections_ledger]
    rw [flatten_eq_nil_of_nil, List.append_nil]
    intro x hx
    obtain ⟨sec, hsec, rfl⟩ := List.mem_map.mp hx
    unfold sectionRows
    cases hcol : collectSectionLinks page sec with
    | none => rfl
    | some links =>
      exact filterMap_eq_nil_of_none _ links (fun l hl => by
        rw [if_neg (hnorec sec links l hsec hcol hl)])

theorem claim1_witness :
    (∀ (sec : Section') (lnk : String × String × String) (st' : OrchState),
        mainFilename stdEnv mainEdexcelConfig.baseUrl lnk ∈
          ["a.pdf", "c.pdf"] →
        (mainProcessLink stdEnv "edexcel_alevel" mainEdexcelConfig.baseUrl
          sec "base" ["a.pdf", "c.pdf"] st' lnk).1 = st') ∧
    (runBoard stdEnv "edexcel_alevel" mainEdexcelConfig "base"
        ["a.pdf", "c.pdf"] c1Page
        (runBoard stdEnv "edexcel_alevel" mainEdexcelConfig "base" [] c1Page
          ⟨[], [], []⟩)).ledger =
      (runBoard stdEnv "edexcel_alevel" mainEdexcelConfig "base" [] c1Page
        ⟨[], [], []⟩).ledger :=
  claim1_resume_skip_idempotent stdEnv "edexcel_alevel" mainEdexcelConfig
    "base" [] ["a.pdf", "c.pdf"] c1Page ⟨[], [], []⟩ rfl (by simp)
    (by decide)

/-- C2.  When the Paper 1 and Paper 3 sections share the anchor identifier
`paper1`, the resolver keeps the first matching heading for the Paper 1
section — so every link before the second matching heading resolves to
Paper 1 — and re-anchors the Paper 3 section (whose `display_name` contains
`Paper 3`) to the next heading whose title contains `Paper 3`, so the links
after that heading resolve to Paper 3. -/
theorem claim2_shared_anchor_resolution
    (l1q l1m l2q l2m l3q l3m : List (String × String)) :
    collectSectionLinks (c2Page l1q l1m l2q l2m l3q l3m) mainPaper1Section =
      some (l1q.map (fun p => (p.1, p.2, "QP")) ++
        l1m.map (fun p => (p.1, p.2, "MS"))) ∧
    collectSectionLinks (c2Page l1q l1m l2q l2m l3q l3m) mainPaper3Section =
      some (l3q.map (fun p => (p.1, p.2, "QP")) ++
        l3m.map (fun p => (p.1, p.2, "MS"))) := by
  refine ⟨?_, ?_⟩
  · have h : collectSectionLinks (c2Page l1q l1m l2q l2m l3q l3m)
        mainPaper1Section =
        some (l1q.map (fun p => (p.1, p.2, "QP")) ++
          (l1m.map (fun p => (p.1, p.2, "MS")) ++ [])) := rfl
    simpa using h
  · have h : collectSectionLinks (c2Page l1q l1m l2q l2m l3q l3m)
        mainPaper3Section =
        some (l3q.map (fun p => (p.1, p.2, "QP")) ++
          (l3m.map (fun p => (p.1, p.2, "MS")) ++ [])) := rfl
    simpa using h

theorem yearAux_shape : ∀ l y : List Char, yearAux l = some y →
    ∃ a b, isDig a = true ∧ isDig b = true ∧ y = ['2', '0', a, b] := by
  intro l
  induction l with
  | nil => intro y h; simp [yearAux] at h
  | cons c cs ih =>
    intro y h
    simp only [yearAux] at h
    split at h
    · split at h
      · rename_i hab
        obtain ⟨ha, hb⟩ := Bool.and_eq_true_iff.mp hab
        exact ⟨_, _, ha, hb, (Option.some.inj h).symm⟩
      · exact ih y h
    · exact ih y h

/-- Every extracted year is the literal `20` followed by two digits. -/
theorem yearSearch_shape (t y : String) (h : yearSearch t = some y) :
    ∃ a b, isDig a = true ∧ isDig b = true ∧
      y = (⟨['2', '0', a, b]⟩ : String) := by
  unfold yearSearch at h
  cases hy : yearAux t.toList with
  | none => rw [hy] at h; simp at h
  | some l =>
    rw [hy] at h
    obtain ⟨a, b, ha, hb, rfl⟩ := yearAux_shape t.toList l hy
    exact ⟨a, b, ha, hb, (Option.some.inj h).symm⟩

/-- C5.  In the orchestrator, an extracted year is always a 2-digit
fragment prefixed by `20`, and a link whose anchor text yields no year is
skipped entirely — state untouched (no transfer, no ledger row) — while the
loop continues with the remaining links of the section. -/
theorem claim5_missing_year_skip (env : Env) (cfgKey baseUrl : String)
    (sec : Section') (basePath : String) (known : List String)
    (st : OrchState) (lnk : String × String × String)
    (rest : List (String × String × String))
    (h : yearSearch lnk.2.1 = none) :
    (∀ t y : String, yearSearch t = some y →
      ∃ a b, isDig a = true ∧ isDig b = true ∧
        y = (⟨['2', '0', a, b]⟩ : String)) ∧
    mainProcessLink env cfgKey baseUrl sec basePath known st lnk =
      (st, Outcome.skippedNoYear) ∧
    runMainLinks env cfgKey baseUrl sec basePath known st (lnk :: rest) =
      runMainLinks env cfgKey baseUrl sec basePath known st rest := by
  refine ⟨yearSearch_shape,
    mainProcessLink_noYear env cfgKey baseUrl sec basePath known st lnk h,
    ?_⟩
  simp only [runMainLinks,
    mainProcessLink_noYear env cfgKey baseUrl sec basePath known st lnk h]

theorem claim5_witness :
    (∀ t y : String, yearSearch t = some y →
      ∃ a b, isDig a = true ∧ isDig b = true ∧
        y = (⟨['2', '0', a, b]⟩ : String)) ∧
    mainProcessLink stdEnv "edexcel_alevel" mainEdexcelConfig.baseUrl
      mainPaper1Section "base" [] ⟨[], [], []⟩
      ("http://x/a.pdf", "Hello QP", "QP") =
      (⟨[], [], []⟩, Outcome.skippedNoYear) ∧
    runMainLinks stdEnv "edexcel_alevel" mainEdexcelConfig.baseUrl
      mainPaper1Section "base" [] ⟨[], [], []⟩
      [("http://x/a.pdf", "Hello QP", "QP")] =
      runMainLinks stdEnv "edexcel_alevel" mainEdexcelConfig.baseUrl
        mainPaper1Section "base" [] ⟨[], [], []⟩ [] :=
  claim5_missing_year_skip stdEnv "edexcel_alevel" mainEdexcelConfig.baseUrl
    mainPaper1Section "base" [] ⟨[], [], []⟩
    ("http://x/a.pdf", "Hello QP", "QP") [] (by decide)

/-- C8.  With validation enabled: a ledger row is appended only when the
outcome is `recorded`; a `recorded` outcome implies the transfer succeeded
and the downloaded bytes passed validation; and on validation failure the
invalid file is removed from disk and the ledger is unchanged. -/
theorem claim8_validate_then_record (env : Env) (cfgKey baseUrl : String)
    (sec : Section') (basePath : String) (known : List String)
    (st : OrchState) (lnk : String × String × String)
    (hval : env.validateFiles = true) :
    ((mainProcessLink env cfgKey baseUrl sec basePath known st lnk).2 ≠
        Outcome.recorded →
      (mainProcessLink env cfgKey baseUrl sec basePath known st
        lnk).1.ledger = st.ledger) ∧
    ((mainProcessLink env cfgKey baseUrl sec basePath known st lnk).2 =
        Outcome.invalidPdf →
      (mainProcessLink env cfgKey baseUrl sec basePath known st
          lnk).1.ledger = st.ledger ∧
      lookupFs (mainProcessLink env cfgKey baseUrl sec basePath known st
          lnk).1.fs
        (mainSavePath env cfgKey baseUrl sec basePath lnk) = none) ∧
    ((mainProcessLink env cfgKey baseUrl sec basePath known st lnk).2 =
        Outcome.recorded →
      (env.fetch (mainFullUrl env baseUrl lnk.1)).1 < 400 ∧
      env.validPdf (env.fetch (mainFullUrl env baseUrl lnk.1)).2 = true) := by
  refine ⟨?_, ?_, ?_⟩
  · intro h
    rw [mainProcessLink_ledger, if_neg]
    exact fun hr => h ((mainProcessLink_recorded_iff env cfgKey baseUrl sec
      basePath known st lnk).mpr hr)
  · intro h
    cases hy : yearSearch lnk.2.1 with
    | none =>
      rw [mainProcessLink_noYear env cfgKey baseUrl sec basePath known st lnk
        hy] at h
      exact absurd h (by simp)
    | some y =>
      by_cases hk : env.resume = true ∧ mainFilename env baseUrl lnk ∈ known
      · rw [mainProcessLink_known env cfgKey baseUrl sec basePath known st
          lnk y hy hk.1 hk.2] at h
        exact absurd h (by simp)
      · by_cases hf : (env.fetch (mainFullUrl env baseUrl lnk.1)).1 < 400
        · by_cases hv : env.validateFiles = true ∧
            env.validPdf (env.fetch (mainFullUrl env baseUrl lnk.1)).2 = false
          · rw [mainProcessLink_invalid env cfgKey baseUrl sec basePath known
              st lnk y hy hk hf hv]
            exact ⟨rfl, lookupFs_removeFs_self _ _⟩
          · rw [mainProcessLink_recorded_eq env cfgKey baseUrl sec basePath
              known st lnk ⟨by simp [hy], hk, hf, hv⟩] at h
            exact absurd h (by simp)
        · rw [mainProcessLink_dlFail env cfgKey baseUrl sec basePath known st
            lnk y hy hk hf] at h
          exact absurd h (by simp)
  · intro h
    obtain ⟨_, _, hf, hv⟩ := (mainProcessLink_recorded_iff env cfgKey baseUrl
      sec basePath known st lnk).mp h
    refine ⟨hf, ?_⟩
    cases hb : env.validPdf (env.fetch (mainFullUrl env baseUrl lnk.1)).2
    · exact absurd ⟨hval, hb⟩ hv
    · rfl

theorem claim8_witness :
    ((mainProcessLink stdEnv "edexcel_alevel" mainEdexcelConfig.baseUrl
        mainPaper1Section "base" [] ⟨[], [], []⟩
        ("http://x/a.pdf", "June 2022 QP", "QP")).2 ≠ Outcome.recorded →
      (mainProcessLink stdEnv "edexcel_alevel" mainEdexcelConfig.baseUrl
        mainPaper1Section "base" [] ⟨[], [], []⟩
        ("http://x/a.pdf", "June 2022 QP", "QP")).1.ledger =
        (⟨[], [], []⟩ : OrchState).ledger) ∧
    ((mainProcessLink stdEnv "edexcel_alevel" mainEdexcelConfig.baseUrl
        mainPaper1Section "base" [] ⟨[], [], []⟩
        ("http://x/a.pdf", "June 2022 QP", "QP")).2 = Outcome.invalidPdf →
      (mainProcessLink stdEnv "edexcel_alevel" mainEdexcelConfig.baseUrl
          mainPaper1Section "base" [] ⟨[], [], []⟩
          ("http://x/a.pdf", "June 2022 QP", "QP")).1.ledger =
        (⟨[], [], []⟩ : OrchState).ledger ∧
      lookupFs (mainProcessLink stdEnv "edexcel_alevel"
          mainEdexcelConfig.baseUrl mainPaper1Section "base" [] ⟨[], [], []⟩
          ("http://x/a.pdf", "June 2022 QP", "QP")).1.fs
        (mainSavePath stdEnv "edexcel_alevel" mainEdexcelConfig.baseUrl
          mainPaper1Section "base"
          ("http://x/a.pdf", "June 2022 QP", "QP")) = none) ∧
    ((mainProcessLink stdEnv "edexcel_alevel" mainEdexcelConfig.baseUrl
        mainPaper1Section "base" [] ⟨[], [], []⟩
        ("http://x/a.pdf", "June 2022 QP", "QP")).2 = Outcome.recorded →
      (stdEnv.fetch (mainFullUrl stdEnv mainEdexcelConfig.baseUrl
        "http://x/a.pdf")).1 < 400 ∧
      stdEnv.validPdf (stdEnv.fetch (mainFullUrl stdEnv
        mainEdexcelConfig.baseUrl "http://x/a.pdf")).2 = true) :=
  claim8_validate_then_record stdEnv "edexcel_alevel"
    mainEdexcelConfig.baseUrl mainPaper1Section "base" [] ⟨[], [], []⟩
    ("http://x/a.pdf", "June 2022 QP", "QP") rfl

/-- C9.  Any row the per-link body adds to the ledger points at a file that
exists on disk at record time, and the stored hash is the hash of that
file's bytes. -/
theorem claim9_ledger_integrity (env : Env) (cfgKey baseUrl : String)
    (sec : Section') (basePath : String) (known : List String)
    (st : OrchState) (lnk : String × String × String) :
    ∀ e, e ∈ (mainProcessLink env cfgKey baseUrl sec basePath known st
        lnk).1.ledger → e ∉ st.ledger →
      ∃ b, lookupFs (mainProcessLink env cfgKey baseUrl sec basePath known st
          lnk).1.fs e.file_path = some b ∧
        e.content_hash = env.hashFn b := by
  intro e he hne
  by_cases hr : MainRecords env baseUrl known lnk
  · rw [mainProcessLink_recorded_eq env cfgKey baseUrl sec basePath known st
      lnk hr] at he ⊢
    rcases List.mem_append.mp he with h1 | h2
    · exact absurd h1 hne
    · rw [List.mem_singleton] at h2
      subst h2
      exact ⟨(env.fetch (mainFullUrl env baseUrl lnk.1)).2,
        by simp [mainEntryOf, mainSavePath, lookupFs_writeFs_self],
        by simp [mainEntryOf]⟩
  · rw [mainProcessLink_ledger, if_neg hr] at he
    exact absurd he hne

theorem claim9_witness :
    ∃ b, lookupFs (mainProcessLink stdEnv "edexcel_alevel"
        mainEdexcelConfig.baseUrl mainPaper1Section "base" [] ⟨[], [], []⟩
        ("http://x/a.pdf", "June 2022 QP", "QP")).1.fs
      (mainEntryOf stdEnv "edexcel_alevel" mainEdexcelConfig.baseUrl
        mainPaper1Section "base"
        ("http://x/a.pdf", "June 2022 QP", "QP")).file_path = some b ∧
    (mainEntryOf stdEnv "edexcel_alevel" mainEdexcelConfig.baseUrl
      mainPaper1Section "base"
      ("http://x/a.pdf", "June 2022 QP", "QP")).content_hash =
      stdEnv.hashFn b :=
  claim9_ledger_integrity stdEnv "edexcel_alevel" mainEdexcelConfig.baseUrl
    mainPaper1Section "base" [] ⟨[], [], []⟩
    ("http://x/a.pdf", "June 2022 QP", "QP")
    (mainEntryOf stdEnv "edexcel_alevel" mainEdexcelConfig.baseUrl
      mainPaper1Section "base" ("http://x/a.pdf", "June 2022 QP", "QP"))
    (by decide) (by decide)

/-- C3 counterexample.  For the `aqa_alevel` board the anchor text carries
a structured numeric token (`Component 3`), yet `determine_paper_number`
returns no paper at all — the anchor-text method and the keyword heuristic
are never consulted for AQA/Edexcel, so the claimed uniform (a)/(b)/(c)
order is false for these boards. -/
theorem claim3_counterexample :
    searchTokDigits "Component " "Component 3 QP" = some "3" ∧
    determine_paper_number "june-2022-qp.pdf" "Component 3 QP" "aqa_alevel" =
      none := by decide

/-- C3 amended.  For the OCR boards paper identity is tried in the order
(a) anchor-text token / (b) URL token / (c) URL keyword heuristic with the
first match winning; for the AQA and Edexcel boards only the URL token
method is tried; and when the applicable methods all fail the link is
skipped with the state untouched (no transfer, no ledger row). -/
theorem claim3_identity_order :
    (∀ href text : String,
      determine_paper_number href text "ocr_alevel" =
        orElseO ((searchTokDigits "Component " text).map mkPaper)
          (orElseO ((searchTokDigits "component-" (pyLower href)).map
            mkPaper) (ocrKeywordPaper href))) ∧
    (∀ href text : String,
      determine_paper_number href text "ocr_mei_alevel" =
        orElseO ((searchTokDigits "Component " text).map mkPaper)
          (orElseO ((searchTokDigits "Paper-" href).map mkPaper)
            (ocrMeiKeywordPaper href))) ∧
    (∀ href text : String,
      determine_paper_number href text "aqa_alevel" =
        (searchTokDigits "Paper-" href).map (fun n =>
          (pyReplaceChar '-' ' ' (pyLower ("Paper-" ++ n)),
            "Paper " ++ n))) ∧
    (∀ href text : String,
      determine_paper_number href text "edexcel_alevel" =
        (searchTokDigits "Paper-" href).map (fun n =>
          (pyReplaceChar '-' ' ' (pyLower ("Paper-" ++ n)),
            "Paper " ++ n))) ∧
    (∀ (env : Env) (cfgKey basePath : String) (st : SState)
        (href text : String), strHas href "pdf-pages" = false →
      determine_paper_number href text cfgKey = none →
      scrapersStep env cfgKey basePath st (href, text) =
        (st, SOutcome.skippedNoPaper)) := by
  refine ⟨?_, ?_, ?_, ?_, ?_⟩
  · intro href text
    unfold determine_paper_number
    rw [if_pos rfl]
    cases h1 : searchTokDigits "Component " text with
    | some n => simp [orElseO]
    | none =>
      cases h2 : searchTokDigits "component-" (pyLower href) with
      | some n => simp [orElseO]
      | none => simp [orElseO]
  · intro href text
    unfold determine_paper_number
    rw [if_neg (by decide), if_pos rfl]
    cases h1 : searchTokDigits "Component " text with
    | some n => simp [orElseO]
    | none =>
      cases h2 : searchTokDigits "Paper-" href with
      | some n => simp [orElseO]
      | none => simp [orElseO]
  · intro href text
    unfold determine_paper_number
    rw [if_neg (by decide), if_neg (by decide), if_pos (Or.inl rfl)]
    cases h : searchTokDigits "Paper-" href <;> simp
  · intro href text
    unfold determine_paper_number
    rw [if_neg (by decide), if_neg (by decide), if_pos (Or.inr rfl)]
    cases h : searchTokDigits "Paper-" href <;> simp
  · intro env cfgKey basePath st href text hpp hdet
    simp [scrapersStep, hpp, hdet]

theorem claim3_witness :
    determine_paper_number "x.pdf" "Component 2 MS" "ocr_alevel" =
      orElseO ((searchTokDigits "Component " "Component 2 MS").map mkPaper)
        (orElseO ((searchTokDigits "component-" (pyLower "x.pdf")).map
          mkPaper) (ocrKeywordPaper "x.pdf")) ∧
    scrapersStep stdEnv "aqa_alevel" "base" ⟨[], [], []⟩
      ("x.pdf", "Component 3 QP") =
      (⟨[], [], []⟩, SOutcome.skippedNoPaper) :=
  ⟨claim3_identity_order.1 "x.pdf" "Component 2 MS",
   claim3_identity_order.2.2.2.2 stdEnv "aqa_alevel" "base" ⟨[], [], []⟩
     "x.pdf" "Component 3 QP" (by decide) (by decide)⟩

/-- C4.  Content-type detection is the case-sensitive `"QP"`-then-`"MS"`
substring check on the anchor text; when neither occurs, classification
yields no content type and the per-link body leaves the state untouched
(no download attempt, no ledger row). -/
theorem claim4_unknown_content_type (text : String)
    (hqp : strHas text "QP" = false) (hms : strHas text "MS" = false) :
    contentTypeOf text = none ∧
    ∀ (env : Env) (cfgKey basePath : String) (st : SState) (href : String),
      (scrapersStep env cfgKey basePath st (href, text)).1 = st := by
  have hct : contentTypeOf text = none := by
    simp [contentTypeOf, hqp, hms]
  refine ⟨hct, ?_⟩
  intro env cfgKey basePath st href
  simp only [scrapersStep]
  split
  · rfl
  · split
    · rfl
    · rw [hct]

theorem claim4_witness :
    contentTypeOf "June 2022 paper" = none ∧
    ∀ (env : Env) (cfgKey basePath : String) (st : SState) (href : String),
      (scrapersStep env cfgKey basePath st (href, "June 2022 paper")).1 =
        st :=
  claim4_unknown_content_type "June 2022 paper" (by decide) (by decide)

/-- C10.  An anchor text containing both `"QP"` and `"MS"` classifies as a
question paper: the `"QP"` branch is tested first and short-circuits the
`"MS"` check. -/
theorem claim10_qp_precedence (text : String)
    (hqp : strHas text "QP" = true) (_hms : strHas text "MS" = true) :
    contentTypeOf text = some ("qp", "question papers") := by
  simp [contentTypeOf, hqp]

theorem claim10_witness :
    contentTypeOf "2022 June QP MS" = some ("qp", "question papers") :=
  claim10_qp_precedence "2022 June QP MS" (by decide) (by decide)

theorem altScan_mem (alts : List (List Char)) :
    ∀ s a : List Char, altScan alts s = some a → a ∈ alts := by
  intro s
  induction s with
  | nil => intro a h; simp [altScan] at h
  | cons c cs ih =>
    intro a h
    simp only [altScan] at h
    cases hf : firstAltAt alts (c :: cs) with
    | some a' =>
      rw [hf] at h
      obtain rfl := Option.some.inj h
      exact List.mem_of_find?_eq_some hf
    | none =>
      rw [hf] at h
      exact ih a h

theorem prefixMatch_of_append (b : List Char) :
    ∀ a s : List Char, prefixMatch (a ++ b) s = true →
      prefixMatch a s = true := by
  intro a
  induction a with
  | nil => intro s _; rfl
  | cons x xs ih =>
    intro s h
    cases s with
    | nil => simp [prefixMatch] at h
    | cons c cs =>
      simp only [List.cons_append, prefixMatch, Bool.and_eq_true] at h ⊢
      exact ⟨h.1, ih cs h.2⟩

theorem subMatch_of_append (a b : List Char) :
    ∀ s : List Char, subMatch (a ++ b) s = true → subMatch a s = true := by
  intro s
  induction s with
  | nil =>
    intro h
    cases a with
    | nil => rfl
    | cons x xs => simp [subMatch, prefixMatch] at h
  | cons c cs ih =>
    intro h
    simp only [subMatch, Bool.or_eq_true] at h ⊢
    rcases h with h | h
    · exact Or.inl (prefixMatch_of_append b (a) _ h)
    · exact Or.inr (ih h)

theorem altScan_none_of (alts : List (List Char)) :
    ∀ s : List Char, (∀ a ∈ alts, subMatch a s = false) →
      altScan alts s = none := by
  intro s
  induction s with
  | nil => intro _; rfl
  | cons c cs ih =>
    intro h
    simp only [altScan]
    have hfa : firstAltAt alts (c :: cs) = none := by
      unfold firstAltAt
      rw [List.find?_eq_none]
      intro a ha hp
      have hs : subMatch a (c :: cs) = true := by
        simp [subMatch, hp]
      rw [h a ha] at hs
      exact absurd hs (by simp)
    rw [hfa]
    refine ih (fun a ha => ?_)
    have := h a ha
    simp only [subMatch, Bool.or_eq_false_iff] at this
    exact this.2

/-- C6 counterexample.  The spec-worded extractor (twelve month names,
case-insensitive) finds `March`; the code's extractor finds nothing for
`March` and nothing for lower-case `june` — the alternation of
`src/scrapers.py` is the case-sensitive five-element set
`June|October|January|November|Nov`. -/
theorem claim6_counterexample :
    specMonthExtract "March 2021 MS" = some "March" ∧
    scrapersMonthOf "March 2021 MS" = none ∧
    scrapersMonthOf "june 2021 QP" = none := by decide

/-- C6 amended.  Month extraction in the unified pipeline matches the
anchor text case-sensitively against `June`, `October`, `January`,
`November` and the abbreviation `Nov` (leftmost match, alternatives in
that order), normalises `Nov` to `November` — so every extracted month is
one of the four full names — and when none of the literals occurs the
month is simply left unset. -/
theorem claim6_month_extraction :
    (∀ t m : String, scrapersMonthOf t = some m →
      m ∈ (["June", "October", "January", "November"] : List String)) ∧
    scrapersMonthOf "Nov 2020 QP" = some "November" ∧
    (∀ t : String, strHas t "June" = false → strHas t "October" = false →
      strHas t "January" = false → strHas t "Nov" = false →
      scrapersMonthOf t = none) := by
  refine ⟨?_, by decide, ?_⟩
  · intro t m h
    unfold scrapersMonthOf at h
    cases ha : altScan [("June" : String).toList,
        ("October" : String).toList, ("January" : String).toList,
        ("November" : String).toList, ("Nov" : String).toList] t.toList with
    | none => rw [ha] at h; simp at h
    | some raw =>
      rw [ha] at h
      have hmem := altScan_mem _ _ _ ha
      obtain rfl := Option.some.inj h
      simp only [List.mem_cons, List.not_mem_nil, or_false] at hmem
      rcases hmem with rfl | rfl | rfl | rfl | rfl <;> decide
  · intro t h1 h2 h3 h4
    have h5 : subMatch ("November" : String).toList t.toList = false := by
      cases hnb : subMatch ("November" : String).toList t.toList
      · rfl
      · have he : ("November" : String).toList =
            ("Nov" : String).toList ++ ['e', 'm', 'b', 'e', 'r'] := by decide
        rw [he] at hnb
        have hsub := subMatch_of_append _ _ _ hnb
        have h4' : subMatch ("Nov" : String).toList t.toList = false := h4
        rw [h4'] at hsub
        exact absurd hsub (by simp)
    have hall : ∀ a ∈ [("June" : String).toList,
        ("October" : String).toList, ("January" : String).toList,
        ("November" : String).toList, ("Nov" : String).toList],
        subMatch a t.toList = false := by
      intro a ha
      simp only [List.mem_cons, List.not_mem_nil, or_false] at ha
      rcases ha with rfl | rfl | rfl | rfl | rfl
      · exact h1
      · exact h2
      · exact h3
      · exact h5
      · exact h4
    unfold scrapersMonthOf
    rw [altScan_none_of _ _ hall]

theorem claim6_witness :
    ("June" : String) ∈
      (["June", "October", "January", "November"] : List String) ∧
    scrapersMonthOf "zzz 2022" = none :=
  ⟨claim6_month_extraction.1 "June 2020 QP" "June" (by decide),
   claim6_month_extraction.2.2 "zzz 2022" (by decide) (by decide)
     (by decide) (by decide)⟩

/-- C7 counterexample.  The unified pipeline stores
`base/alevel/edexcel/paper 3/qp/...` — level before board and no subtype
component — which differs from the claimed
`base / board / level / paper_label / [subtype] / content_type_folder`
composition under every naming choice the claim allows. -/
theorem claim7_counterexample :
    (scrapersStep stdEnv "edexcel_alevel" "base" ⟨[], [], []⟩
        ("http://x/Paper-3-QP.pdf", "June 2022 (Mech) QP")).1.rows =
      [{ filename := "Paper-3-QP.pdf", exam_board := "edexcel",
         level := "alevel", paper_type := "Paper 3",
         subtype := some "Mechanics", content_type := "QP",
         year := some "2022", month := some "June",
         file_path := "base/alevel/edexcel/paper 3/qp/Paper-3-QP.pdf",
         download_date := "2026-10-12" }] ∧
    (∀ label ∈ (["paper 3", "Paper 3"] : List String),
     ∀ sub ∈ ([some "Mechanics", none] : List (Option String)),
     ∀ ctf ∈ (["qp", "question_papers"] : List String),
      specDirectoryClaim "base" "edexcel" "alevel" label sub ctf ++
        "/Paper-3-QP.pdf" ≠
        "base/alevel/edexcel/paper 3/qp/Paper-3-QP.pdf") := by decide

theorem mainSubtypeFinal_isSome (pt t : String) (s : Option String) :
    (mainSubtypeFinal pt t s).isSome = s.isSome := by
  unfold mainSubtypeFinal
  split
  · rename_i hcond
    split
    · simp [hcond.2]
    · split
      · simp [hcond.2]
      · rfl
  · rfl

/-- C7 amended.  In the orchestrator a recorded row's path is
`base / Board / LEVEL / paper_label / [subtype, when the label contains
"Paper 3" and a subtype is present] / {question_papers|mark_schemes} /
filename`; in the unified pipeline a recorded row's path is
`base / level / board / paper_number / {qp|ms} / filename` — level before
board and never a subtype component. -/
theorem claim7_directory_composition :
    (∀ (env : Env) (cfgKey baseUrl : String) (sec : Section')
        (basePath : String) (known : List String) (st : OrchState)
        (lnk : String × String × String),
      (mainProcessLink env cfgKey baseUrl sec basePath known st lnk).2 =
        Outcome.recorded →
      ∃ e : LedgerEntry,
        (mainProcessLink env cfgKey baseUrl sec basePath known st
          lnk).1.ledger = st.ledger ++ [e] ∧
        e.file_path = joinPath
          ([basePath, pyCapitalize e.exam_board, pyUpper e.level,
              pyReplaceChar ' ' '_' e.paper_type] ++
            (if strHas e.paper_type "Paper 3" = true ∧
                e.subtype.isSome = true then [e.subtype.getD ""] else []) ++
            [if e.content_type = "QP" then "question_papers"
              else "mark_schemes", e.filename])) ∧
    (∀ (env : Env) (cfgKey basePath : String) (st st' : SState)
        (lnk : String × String),
      scrapersStep env cfgKey basePath st lnk = (st', SOutcome.recorded) →
      ∃ (r : SRow) (pn dn ct dt href : String),
        determine_paper_number href lnk.2 cfgKey = some (pn, dn) ∧
        contentTypeOf lnk.2 = some (ct, dt) ∧
        st'.rows = st.rows ++ [r] ∧
        r.file_path =
          joinPath [basePath, r.level, r.exam_board, pn, ct, r.filename]) := by
  constructor
  · intro env cfgKey baseUrl sec basePath known st lnk h
    have hr := (mainProcessLink_recorded_iff env cfgKey baseUrl sec basePath
      known st lnk).mp h
    rw [mainProcessLink_recorded_eq env cfgKey baseUrl sec basePath known st
      lnk hr]
    refine ⟨mainEntryOf env cfgKey baseUrl sec basePath lnk, rfl, ?_⟩
    simp only [mainEntryOf, mainSavePath, mainFolderComponents,
      mainSubtypeFinal_isSome, List.append_assoc, List.cons_append,
      List.nil_append, List.singleton_append]
  · intro env cfgKey basePath st st' lnk h
    simp only [scrapersStep] at h
    split at h
    next => simp at h
    next href hhrefeq =>
      split at h
      next => simp at h
      next pn dn hdet =>
        split at h
        next => simp at h
        next ct dt hct =>
          split at h
          next h400 =>
            split at h
            next h200 =>
              rw [h400] at h200
              exact absurd h200 (by decide)
            next h200 => simp at h
          next h400 =>
            split at h
            next h200 =>
              injection h with h1 h2
              subst h1
              exact ⟨_, pn, dn, ct, dt, href, hdet, hct, rfl, rfl⟩
            next h200 => simp at h

theorem claim7_witness :
    (∃ e : LedgerEntry,
      (mainProcessLink stdEnv "edexcel_alevel" mainEdexcelConfig.baseUrl
        mainPaper3Section "base" [] ⟨[], [], []⟩
        ("http://x/Paper-3-QP.pdf", "June 2022 (Mech) QP", "QP")).1.ledger =
        (⟨[], [], []⟩ : OrchState).ledger ++ [e] ∧
      e.file_path = joinPath
        ([("base" : String), pyCapitalize e.exam_board, pyUpper e.level,
            pyReplaceChar ' ' '_' e.paper_type] ++
          (if strHas e.paper_type "Paper 3" = true ∧
              e.subtype.isSome = true then [e.subtype.getD ""] else []) ++
          [if e.content_type = "QP" then "question_papers"
            else "mark_schemes", e.filename])) ∧
    (∃ (r : SRow) (pn dn ct dt href : String),
      determine_paper_number href "June 2022 (Mech) QP" "edexcel_alevel" =
        some (pn, dn) ∧
      contentTypeOf "June 2022 (Mech) QP" = some (ct, dt) ∧
      (scrapersStep stdEnv "edexcel_alevel" "base" ⟨[], [], []⟩
        ("http://x/Paper-3-QP.pdf", "June 2022 (Mech) QP")).1.rows =
        (⟨[], [], []⟩ : SState).rows ++ [r] ∧
      r.file_path =
        joinPath ["base", r.level, r.exam_board, pn, ct, r.filename]) :=
  ⟨claim7_directory_composition.1 stdEnv "edexcel_alevel"
    mainEdexcelConfig.baseUrl mainPaper3Section "base" [] ⟨[], [], []⟩
    ("http://x/Paper-3-QP.pdf", "June 2022 (Mech) QP", "QP") (by decide),
   claim7_directory_composition.2 stdEnv "edexcel_alevel" "base"
    ⟨[], [], []⟩
    ((scrapersStep stdEnv "edexcel_alevel" "base" ⟨[], [], []⟩
      ("http://x/Paper-3-QP.pdf", "June 2022 (Mech) QP")).1)
    ("http://x/Paper-3-QP.pdf", "June 2022 (Mech) QP") (by decide)⟩

example : strHas "2022 June QP" "QP" = true := by decide
example : determine_paper_number "http://x/Paper-3-QP.pdf" "June 2022 QP"
    "edexcel_alevel" = some ("paper 3", "Paper 3") := by decide
example : determine_paper_number "x.pdf" "Component 2 MS" "ocr_alevel"
    = some ("paper 2", "Paper 2") := by decide
example : determine_paper_number "x.pdf" "Component 3 QP" "aqa_alevel"
    = none := by decide
example : scrapersMonthOf "Nov 2020 QP" = some "November" := by decide
example : scrapersMonthOf "March 2021 QP" = none := by decide
example : contentTypeOf "2022 June QP MS" = some ("qp", "question papers") :=
  by decide
example :
    (scrapersStep stdEnv "edexcel_alevel" "base" ⟨[], [], []⟩
      ("http://x/Paper-3-QP.pdf", "June 2022 (Mech) QP")).1.rows =
    [{ filename := "Paper-3-QP.pdf", exam_board := "edexcel",
       level := "alevel", paper_type := "Paper 3",
       subtype := some "Mechanics", content_type := "QP",
       year := some "2022", month := some "June",
       file_path := "base/alevel/edexcel/paper 3/qp/Paper-3-QP.pdf",
       download_date := "2026-10-12" }] := by decide
example : strHas "2022 June MS" "QP" = false := by decide
example : yearSearch "June 2022 QP" = some "2022" := by decide
example : yearSearch "June QP" = none := by decide
example : searchTokDigits "Paper-" "http://x/Paper-3-QP.pdf" = some "3" := by decide
example : searchTokDigits "Component " "Component 12 MS" = some "12" := by decide
example : pySplit "_" "edexcel_alevel" = ["edexcel", "alevel"] := by decide
example : basename "http://x/a/b.pdf" = "b.pdf" := by decide
example : pyCapitalize "edexcel" = "Edexcel" := by decide
example : pyUpper "alevel" = "ALEVEL" := by decide

end MathScraper
